import Mathlib

/-!
Verification of the pgdump-offline storage decoder against its specification.

The Go sources are shallowly embedded: byte buffers are `List Nat`
(each element a byte value), machine integers are `Nat` or `Int` with
explicit masking where overflow matters, fallible functions return
`Except` or `Option`, and file access is an explicit reader function
`String → Except String (List Nat)`.
-/

set_option autoImplicit false
set_option maxRecDepth 4000

namespace PgDump

/-- Bytes of a file or buffer, least significant first at each offset. -/
abbrev Bytes := List Nat

/-- Modelled from the spec: `u16` reads a little-endian 16-bit integer at a
given offset with bounds checking, returning zero if out of range. -/
def u16 (data : Bytes) (off : Nat) : Nat :=
  if off + 2 ≤ data.length then
    data.getD off 0 + 256 * data.getD (off + 1) 0
  else 0

/-- Modelled from the spec: `u32` reads a little-endian 32-bit integer at a
given offset with bounds checking, returning zero if out of range. -/
def u32 (data : Bytes) (off : Nat) : Nat :=
  if off + 4 ≤ data.length then
    data.getD off 0 + 256 * data.getD (off + 1) 0 +
    65536 * data.getD (off + 2) 0 + 16777216 * data.getD (off + 3) 0
  else 0

/-- Modelled from the spec: `u64` reads a little-endian 64-bit integer at a
given offset with bounds checking, returning zero if out of range. -/
def u64 (data : Bytes) (off : Nat) : Nat :=
  if off + 8 ≤ data.length then
    u32 data off + 4294967296 * u32 data (off + 4)
  else 0

/-- Two's-complement reinterpretation of a 32-bit value as a signed integer. -/
def toInt32 (v : Nat) : Int :=
  let w := v % 4294967296
  if w < 2147483648 then (w : Int) else (w : Int) - 4294967296

/-- Modelled from the spec: `i32` reads a little-endian signed 32-bit integer. -/
def i32 (data : Bytes) (off : Nat) : Int :=
  toInt32 (u32 data off)

/-- Modelled from the spec: `align(offset, n)` rounds `offset` up to a
multiple of `n`. -/
def align (off n : Nat) : Nat :=
  if n = 0 then off else (off + n - 1) / n * n

/-- Alignment of WAL record positions to 8 bytes, `(n + 7) &^ 7` in the source. -/
def align8 (n : Nat) : Nat :=
  (n + 7) / 8 * 8

/-- Page size of the storage engine, 8192 bytes. -/
def PageSize : Nat := 8192

/-- Size of the 24-byte page header. -/
def headerSize : Nat := 24

/-- Size of one item pointer, 4 bytes. -/
def itemIDSize : Nat := 4

/-! ## Block-range string parser (`ParseBlockRange` in segment.go) -/

/-- Result of parsing a block-range string: start and end block, `-1` meaning
absent. -/
structure BlockRange where
  Start : Int
  End : Int
deriving Repr, DecidableEq

/-- Decimal digit test used by the integer parser. -/
def isDigit (c : Char) : Bool :=
  decide (0x30 ≤ c.toNat) && decide (c.toNat ≤ 0x39)

/-- Parse a list of decimal digits most significant first, accumulating. -/
def digitsAcc (acc : Nat) : List Char → Nat
  | [] => acc
  | c :: cs => digitsAcc (acc * 10 + (c.toNat - 0x30)) cs

/-- Model of Go `strconv.Atoi`: optional sign, then one or more decimal
digits; anything else is an error.  (Overflow of 64-bit ints is not modelled;
the embedded parser is exact on all inputs whose digits fit in an `int`.) -/
def goAtoi (s : List Char) : Except String Int :=
  match s with
  | [] => .error "invalid syntax"
  | c :: rest =>
    let (neg, digits) :=
      if c = '-' then (true, rest)
      else if c = '+' then (false, rest)
      else (false, c :: rest)
    if digits.isEmpty then .error "invalid syntax"
    else if digits.all isDigit then
      let v : Int := (digitsAcc 0 digits : Int)
      .ok (if neg then -v else v)
    else .error "invalid syntax"

/-- Split a string at the first colon, as `strings.SplitN(s, ":", 2)` does
when a colon is present. -/
def splitColon : List Char → (List Char × List Char)
  | [] => ([], [])
  | c :: rest =>
    if c = ':' then ([], rest)
    else
      let (a, b) := splitColon rest
      (c :: a, b)

/-- Whether the string contains a colon. -/
def hasColon (s : List Char) : Bool :=
  s.any (fun c => c = ':')

/-- Parse the two halves of a colon form, mirroring the first branch of
`ParseBlockRange`: an empty half leaves the bound at `-1`, a malformed or
negative number is an error. -/
def parseColonParts (p0 p1 : List Char) : Except String BlockRange :=
  match (if p0.isEmpty then .ok (-1) else
    match goAtoi p0 with
    | .error _ => .error "invalid start block"
    | .ok v => if v < 0 then .error "start block cannot be negative" else .ok v :
      Except String Int) with
  | .error e => .error e
  | .ok s0 =>
    match (if p1.isEmpty then .ok (-1) else
      match goAtoi p1 with
      | .error _ => .error "invalid end block"
      | .ok v => if v < 0 then .error "end block cannot be negative" else .ok v :
        Except String Int) with
    | .error e => .error e
    | .ok s1 => .ok ⟨s0, s1⟩

/-- `ParseBlockRange` parses a block range string like "0:10" or "5:" or
":20" or "5"; empty input yields no range; a negative bound or a start
greater than the end is rejected. -/
def ParseBlockRange (s : List Char) : Except String (Option BlockRange) :=
  if s.isEmpty then .ok none
  else
    let parsed : Except String BlockRange :=
      if hasColon s then
        let (p0, p1) := splitColon s
        parseColonParts p0 p1
      else
        match goAtoi s with
        | .error _ => .error "invalid block number"
        | .ok v =>
          if v < 0 then .error "block number cannot be negative"
          else .ok ⟨v, v⟩
    match parsed with
    | .error e => .error e
    | .ok br =>
      if 0 ≤ br.Start ∧ 0 ≤ br.End ∧ br.End < br.Start then
        .error "start block cannot be greater than end block"
      else .ok (some br)

/-! ## OID↔filenode map (`ParseRelMapFile` in relmap.go) -/

/-- Magic number of a pg_filenode.map file. -/
def RelMapMagic : Nat := 0x592717

/-- Maximum number of mappings in the map file. -/
def RelMapMaxMappings : Int := 62

/-- One OID-to-filenode mapping. -/
structure RelMapping where
  OID : Nat
  Filenode : Nat
deriving Repr, DecidableEq

/-- Parsed pg_filenode.map file. -/
structure RelMapFile where
  Magic : Nat
  NumMappings : Int
  Mappings : List RelMapping
  CRC : Nat
deriving Repr, DecidableEq

/-- Mapping-array reader: reads up to `n` pairs of 4-byte OID and filenode
starting at byte offset `off`, stopping at the end of the buffer. -/
def relMapEntries (data : Bytes) : Nat → Nat → List RelMapping
  | 0, _ => []
  | n + 1, off =>
    if off + 8 > data.length then []
    else ⟨u32 data off, u32 data (off + 4)⟩ :: relMapEntries data n (off + 8)

/-- `ParseRelMapFile` parses a 512-byte pg_filenode.map buffer: magic,
mapping count in `[0, 62]`, the mappings, and the trailing CRC. -/
def ParseRelMapFile (data : Bytes) : Except String RelMapFile :=
  if data.length < 512 then .error "relmap file too small"
  else
    let magic := u32 data 0
    if magic ≠ RelMapMagic then .error "invalid relmap magic"
    else
      let num := toInt32 (u32 data 4)
      if num < 0 ∨ RelMapMaxMappings < num then .error "invalid number of mappings"
      else
        let mappings := relMapEntries data num.toNat 8
        let crcOffset := 8 + 62 * 8
        let crc := if crcOffset + 4 ≤ data.length then u32 data crcOffset else 0
        .ok ⟨magic, num, mappings, crc⟩

/-- `GetFilenode` returns the filenode for an OID, or 0 if not found. -/
def RelMapFile.GetFilenode (rm : RelMapFile) (oid : Nat) : Nat :=
  match rm.Mappings.find? (fun m => m.OID == oid) with
  | some m => m.Filenode
  | none => 0

/-- `GetOID` returns the OID for a filenode, or 0 if not found. -/
def RelMapFile.GetOID (rm : RelMapFile) (filenode : Nat) : Nat :=
  match rm.Mappings.find? (fun m => m.Filenode == filenode) with
  | some m => m.OID
  | none => 0

/-! ## Block information (`ParseBlockInfo` in segment.go) -/

/-- Information about a single page, as reported by the block dumper.
The LSN is kept as its 64-bit value; the source also renders it as a hex
string which is presentation only. -/
structure BlockInfo where
  BlockNumber : Nat
  Lsn : Nat
  Checksum : Nat
  Flags : Nat
  Lower : Nat
  Upper : Nat
  Special : Nat
  PageSize : Nat
  Version : Nat
  ItemCount : Nat
  FreeSpace : Nat
  IsEmpty : Bool
deriving Repr, DecidableEq

/-- `ParseBlockInfo` extracts header information about a single block.
A buffer of fewer than `PageSize` bytes is rejected; an all-zero page is
reported empty; otherwise the 24-byte page header is decoded and the item
count and free space derived from `lower` and `upper`. -/
def ParseBlockInfo (data : Bytes) (blockNumber : Nat) : Option BlockInfo :=
  if data.length < PageSize then none
  else if (data.take PageSize).all (fun b => b == 0) then
    some ⟨blockNumber, 0, 0, 0, 0, 0, 0, 0, 0, 0, 0, true⟩
  else
    let lsn := u64 data 0
    let checksum := u16 data 8
    let flags := u16 data 10
    let lower := u16 data 12
    let upper := u16 data 14
    let special := u16 data 16
    let psv := u16 data 18
    let pageSize := psv &&& 0xFF00
    let version := psv &&& 0x00FF
    let itemCount := if headerSize ≤ lower then (lower - headerSize) / itemIDSize else 0
    let freeSpace := if lower < upper then upper - lower else 0
    some ⟨blockNumber, lsn, checksum, flags, lower, upper, special,
      pageSize, version, itemCount, freeSpace, false⟩

/-! ## TOAST layer (`ReassembleTOAST`, `decompressPGLZ`, `decompressLZ4`) -/

/-- One chunk row of a TOAST table. -/
structure TOASTChunk where
  ChunkID : Nat
  ChunkSeq : Int
  Data : Bytes
deriving Repr, DecidableEq

/-- Parsed external TOAST pointer. -/
structure TOASTPointer where
  RawSize : Nat
  ExtSize : Nat
  ValueID : Nat
  ToastRelID : Nat
  IsCompressed : Bool
  CompressionMethod : Nat
deriving Repr, DecidableEq

/-- Insert a chunk into a list ascending by `ChunkSeq`. -/
def insertChunk (c : TOASTChunk) : List TOASTChunk → List TOASTChunk
  | [] => [c]
  | d :: ds => if c.ChunkSeq < d.ChunkSeq then c :: d :: ds else d :: insertChunk c ds

/-- Sort chunks ascending by `ChunkSeq`, the order produced by
`sort.Slice(valueChunks, ChunkSeq less-than)` in the source. -/
def sortChunks : List TOASTChunk → List TOASTChunk
  | [] => []
  | c :: cs => insertChunk c (sortChunks cs)

/-- Back-reference copy loop of the pglz decompressor: appends
`result[start + i % offset]` while `i < length` and the output is below
`rawSize`. -/
def pglzCopy (start off : Nat) (rawSize : Int) (i length : Nat) (result : Bytes) : Bytes :=
  if i < length ∧ (result.length : Int) < rawSize then
    pglzCopy start off rawSize (i + 1) length (result ++ [result.getD (start + i % off) 0])
  else result
termination_by length - i

/-- Back-reference step of the pglz decompressor: a zero offset or one past
the current output leaves the output unchanged, otherwise `len` bytes are
copied from `off` bytes back. -/
def pglzBackref (off len : Nat) (rawSize : Int) (result : Bytes) : Bytes :=
  if off = 0 ∨ result.length < off then result
  else pglzCopy (result.length - off) off rawSize 0 len result

/-- Control-bit loop of the pglz decompressor: one iteration per bit of the
control byte, reading a two-byte back-reference or a literal byte.  Returns
the input position and output after the loop. -/
def pglzBits (data : Bytes) (ctrl : Nat) (rawSize : Int) :
    Nat → Nat → Bytes → Nat × Bytes
  | bit, pos, result =>
    if bit < 8 ∧ pos < data.length ∧ (result.length : Int) < rawSize then
      if ctrl &&& (1 <<< bit) ≠ 0 then
        if data.length ≤ pos + 1 then (pos, result)
        else
          pglzBits data ctrl rawSize (bit + 1) (pos + 2)
            (pglzBackref (data.getD pos 0 ||| ((data.getD (pos + 1) 0 &&& 0xF0) <<< 4))
              ((data.getD (pos + 1) 0 &&& 0x0F) + 3) rawSize result)
      else
        pglzBits data ctrl rawSize (bit + 1) (pos + 1) (result ++ [data.getD pos 0])
    else (pos, result)
termination_by bit _ _ => 8 - bit

/-- Position monotonicity of the control-bit loop, used for termination of
the outer loop. -/
theorem pglzBits_pos_le (data : Bytes) (ctrl : Nat) (rawSize : Int) :
    ∀ bit pos result, pos ≤ (pglzBits data ctrl rawSize bit pos result).1 := by
  have H : ∀ k bit pos result, 8 - bit ≤ k →
      pos ≤ (pglzBits data ctrl rawSize bit pos result).1 := by
    intro k
    induction k with
    | zero =>
      intro bit pos result hk
      rw [pglzBits]
      split
      · omega
      · simp
    | succ k ih =>
      intro bit pos result hk
      rw [pglzBits]
      split
      · rename_i h
        split
        · split
          · simp
          · exact le_trans (by omega) (ih (bit + 1) (pos + 2) _ (by omega))
        · exact le_trans (by omega) (ih (bit + 1) (pos + 1) _ (by omega))
      · simp
  exact fun bit pos result => H 8 bit pos result (by omega)

/-- Outer loop of the pglz decompressor: reads a control byte, then runs the
control-bit loop; stops at the end of input or when the output reaches
`rawSize` bytes. -/
def pglzLoop (data : Bytes) (rawSize : Int) : Nat → Bytes → Bytes
  | pos, result =>
    if h : pos < data.length ∧ (result.length : Int) < rawSize then
      pglzLoop data rawSize
        (pglzBits data (data.getD pos 0) rawSize 0 (pos + 1) result).1
        (pglzBits data (data.getD pos 0) rawSize 0 (pos + 1) result).2
    else result
termination_by pos _ => data.length - pos
decreasing_by
  have := pglzBits_pos_le data (data.getD pos 0) rawSize 0 (pos + 1) result
  omega

/-- `decompressPGLZ` decompresses the engine's native (pglz) format: each
control byte gates eight literal-or-match decisions; a match is two bytes
holding a 12-bit back-offset and a 4-bit length plus 3.  Inputs shorter than
4 bytes are rejected. -/
def decompressPGLZ (data : Bytes) (rawSize : Int) : Except String Bytes :=
  if data.length < 4 then .error "data too short"
  else .ok (pglzLoop data rawSize 0 [])

/-- Variable-length length extension of the LZ4 block format: adds bytes to
`acc` while they equal 255, returning the total and the position after the
extension. -/
def lz4Ext (data : Bytes) : Nat → Nat → Nat × Nat
  | acc, pos =>
    if pos < data.length then
      if data.getD pos 0 = 255 then lz4Ext data (acc + 255) (pos + 1)
      else (acc + data.getD pos 0, pos + 1)
    else (acc, pos)
termination_by _ pos => data.length - pos

/-- Position monotonicity of the LZ4 length extension. -/
theorem lz4Ext_pos_le (data : Bytes) :
    ∀ acc pos, pos ≤ (lz4Ext data acc pos).2 := by
  have H : ∀ k acc pos, data.length - pos ≤ k → pos ≤ (lz4Ext data acc pos).2 := by
    intro k
    induction k with
    | zero =>
      intro acc pos hk
      rw [lz4Ext]
      split
      · omega
      · simp
    | succ k ih =>
      intro acc pos hk
      rw [lz4Ext]
      split
      · split
        · exact le_trans (by omega) (ih (acc + 255) (pos + 1) (by omega))
        · simp
      · simp
  exact fun acc pos => H (data.length - pos) acc pos le_rfl

/-- Match copy loop of the LZ4 decompressor, identical in shape to the pglz
back-reference copy. -/
def lz4Copy (start off : Nat) (rawSize : Int) (i length : Nat) (result : Bytes) : Bytes :=
  if i < length ∧ (result.length : Int) < rawSize then
    lz4Copy start off rawSize (i + 1) length (result ++ [result.getD (start + i % off) 0])
  else result
termination_by length - i

/-- Match phase of one LZ4 iteration: `s` carries the match length and the
position after it; an offset past the current output is an error, otherwise
the match is copied and the loop continues from `s.2`. -/
def lz4Match (rawSize : Int) (off : Nat) (s : Nat × Nat) (result : Bytes) :
    Except String Bytes ⊕ Nat × Bytes :=
  if result.length < off then .inl (.error "offset too large")
  else .inr (s.2, lz4Copy (result.length - off) off rawSize 0 s.1 result)

/-- Offset-and-match phase of one LZ4 iteration, entered after the literal
run ending at `pos3`: stops at end of input or output, reads the 16-bit
offset, rejects a zero offset, then reads the match length. -/
def lz4Tail (data : Bytes) (rawSize : Int) (token pos3 : Nat) (result : Bytes) :
    Except String Bytes ⊕ Nat × Bytes :=
  if data.length ≤ pos3 ∨ rawSize ≤ (result.length : Int) then .inl (.ok result)
  else if data.length < pos3 + 2 then .inl (.ok result)
  else if data.getD pos3 0 ||| (data.getD (pos3 + 1) 0 <<< 8) = 0 then
    .inl (.error "invalid offset")
  else
    lz4Match rawSize (data.getD pos3 0 ||| (data.getD (pos3 + 1) 0 <<< 8))
      (if (token &&& 0x0F) + 4 = 19 then lz4Ext data ((token &&& 0x0F) + 4) (pos3 + 2)
       else ((token &&& 0x0F) + 4, pos3 + 2)) result

/-- Clamped literal length: the declared run is cut at the end of the input. -/
def lz4Clamp (data : Bytes) (pos2 lit : Nat) : Nat :=
  if data.length < pos2 + lit then data.length - pos2 else lit

/-- Literal phase of one LZ4 iteration: `s` carries the declared literal
length and the position after the token and length extension; the literal
run is appended and the match phase entered. -/
def lz4Lit (data : Bytes) (rawSize : Int) (token : Nat) (s : Nat × Nat) (result : Bytes) :
    Except String Bytes ⊕ Nat × Bytes :=
  lz4Tail data rawSize token (s.2 + lz4Clamp data s.2 s.1)
    (result ++ (data.drop s.2).take (lz4Clamp data s.2 s.1))

/-- One iteration of the LZ4 decompressor starting at `pos`: reads the
token, resolves the literal length, and runs the literal and match phases.
`.inl` is a finished result, `.inr` the state for the next iteration. -/
def lz4Step (data : Bytes) (rawSize : Int) (pos : Nat) (result : Bytes) :
    Except String Bytes ⊕ Nat × Bytes :=
  lz4Lit data rawSize (data.getD pos 0)
    (if data.getD pos 0 >>> 4 = 15 then lz4Ext data (data.getD pos 0 >>> 4) (pos + 1)
     else (data.getD pos 0 >>> 4, pos + 1)) result

/-- The continuation position of the match phase is the position in `s`. -/
theorem lz4Match_inr (rawSize : Int) (off : Nat) (s : Nat × Nat) (result : Bytes)
    {p : Nat} {r : Bytes} (h : lz4Match rawSize off s result = .inr (p, r)) : p = s.2 := by
  unfold lz4Match at h
  split at h
  · cases h
  · cases h; rfl

/-- The continuation position after the offset-and-match phase lies past the
16-bit offset field. -/
theorem lz4Tail_inr (data : Bytes) (rawSize : Int) (token pos3 : Nat) (result : Bytes)
    {p : Nat} {r : Bytes} (h : lz4Tail data rawSize token pos3 result = .inr (p, r)) :
    pos3 + 2 ≤ p := by
  unfold lz4Tail at h
  split at h
  · cases h
  · split at h
    · cases h
    · split at h
      · cases h
      · have hp := lz4Match_inr _ _ _ _ h
        subst hp
        split
        · have := lz4Ext_pos_le data ((token &&& 0x0F) + 4) (pos3 + 2)
          omega
        · omega

/-- The continuation position of one LZ4 iteration is strictly past `pos`. -/
theorem lz4Step_inr (data : Bytes) (rawSize : Int) (pos : Nat) (result : Bytes)
    {p : Nat} {r : Bytes} (h : lz4Step data rawSize pos result = .inr (p, r)) :
    pos < p := by
  unfold lz4Step lz4Lit at h
  have h2 := lz4Tail_inr _ _ _ _ _ h
  split at h2
  · have := lz4Ext_pos_le data (data.getD pos 0 >>> 4) (pos + 1)
    omega
  · omega

/-- Main loop of the LZ4 block decompressor. -/
def lz4Loop (data : Bytes) (rawSize : Int) : Nat → Bytes → Except String Bytes
  | pos, result =>
    if h : pos < data.length ∧ (result.length : Int) < rawSize then
      match hstep : lz4Step data rawSize pos result with
      | .inl e => e
      | .inr (p, r) => lz4Loop data rawSize p r
    else .ok result
termination_by pos _ => data.length - pos
decreasing_by
  have := lz4Step_inr data rawSize pos result hstep
  omega

/-- `decompressLZ4` decompresses the LZ4 block format; empty input is
rejected. -/
def decompressLZ4 (data : Bytes) (rawSize : Int) : Except String Bytes :=
  if data.length < 1 then .error "data too short"
  else lz4Loop data rawSize 0 []

/-- `ReassembleTOAST` reconstructs a value from TOAST chunks: the chunks
whose `ChunkID` equals `valueID` are sorted by `ChunkSeq` and their payloads
concatenated; when the pointer indicates compression, LZ4, pglz and a
generic zlib fallback are tried in turn, and on failure the still-compressed
bytes are returned.  The zlib inflater is Go standard-library code external
to this repository and is taken as a parameter. -/
def ReassembleTOAST (zlib : Bytes → Option Bytes) (chunks : List TOASTChunk)
    (valueID : Nat) (ptr : Option TOASTPointer) : Bytes :=
  let valueChunks := chunks.filter (fun c => c.ChunkID == valueID)
  if valueChunks.isEmpty then []
  else
    let data := ((sortChunks valueChunks).map TOASTChunk.Data).flatten
    match ptr with
    | none => data
    | some p =>
      if p.IsCompressed ∧ 0 < data.length then
        let rawSize : Int := (p.RawSize : Int)
        let lz4Result : Option Bytes :=
          if p.CompressionMethod = 1 then
            match decompressLZ4 data rawSize with
            | .ok d => some d
            | .error _ => none
          else none
        match lz4Result with
        | some d => d
        | none =>
          match decompressPGLZ data rawSize with
          | .ok d => if 0 < d.length then d else
              match zlib data with
              | some z => z
              | none => data
          | .error _ =>
            match zlib data with
            | some z => z
            | none => data
      else data

/-! ## WAL page decoder (`parseWALPage` and friends in wal.go) -/

/-- WAL page size. -/
def WALPageSize : Nat := 8192

/-- Size of an XLogRecord header. -/
def XLogRecordSize : Nat := 24

/-- Size of a short WAL page header. -/
def ShortHeaderSize : Nat := 24

/-- Size of a long WAL page header. -/
def LongHeaderSize : Nat := 40

/-- Info flag: the first record on this page continues one from the
previous page. -/
def XLP_FIRST_IS_CONTRECORD : Nat := 0x0001

/-- Info flag: this page carries a long header. -/
def XLP_LONG_HEADER : Nat := 0x0002

/-- Parsed WAL page header. -/
structure WALPageHeader where
  Magic : Nat
  Info : Nat
  TimelineID : Nat
  PageAddr : Nat
  RemLen : Nat
  SystemID : Nat
  SegSize : Nat
  BlockSize : Nat
deriving Repr, DecidableEq

/-- Block reference attached to a WAL record. -/
structure WALBlockRef where
  ID : Nat
  ForkNum : Nat
  Flags : Nat
  SpcOID : Nat
  DbOID : Nat
  RelOID : Nat
  HasRel : Bool
  BlockNum : Nat
deriving Repr, DecidableEq

/-- Parsed WAL record.  The source also carries display strings naming the
resource manager and operation (`rmgrName`, `operationName`); those labels
are presentation only and not embedded. -/
structure WALRecord where
  TotalLen : Nat
  TransactionID : Nat
  PrevLSN : Nat
  Info : Nat
  ResourceMgr : Nat
  CRC : Nat
  LSN : Nat
  Blocks : List WALBlockRef
deriving Repr, DecidableEq

/-- `isValidMagic` accepts the WAL page magic numbers of engine versions 12
through 16. -/
def isValidMagic (magic : Nat) : Bool :=
  magic == 0xD113 || magic == 0xD110 || magic == 0xD10F ||
  magic == 0xD10D || magic == 0xD109

/-- `parsePageHeader` reads the 24-byte short header and, when the long
header flag is set and the buffer is long enough, the long header fields. -/
def parsePageHeader (data : Bytes) : WALPageHeader :=
  let info := u16 data 2
  let long := info &&& XLP_LONG_HEADER ≠ 0 ∧ LongHeaderSize ≤ data.length
  { Magic := u16 data 0
    Info := info
    TimelineID := u32 data 4
    PageAddr := u64 data 8
    RemLen := u32 data 16
    SystemID := if long then u64 data 24 else 0
    SegSize := if long then u32 data 32 else 0
    BlockSize := if long then u32 data 36 else 0 }

/-- `isZeroPadding` checks whether the first eight bytes at a position are
all zero. -/
def isZeroPadding (data : Bytes) : Bool :=
  ((data.take 8).all (fun b => b == 0))

/-- One block reference of `parseBlockRefs`, after the id and fork-flags
bytes at `pos` have been read: relation identifier unless the same-rel flag
is set, block number, then skipped image and data payloads.  Returns the
reference and the next position. -/
def parseOneBlockRef (data : Bytes) (blockID forkFlags pos : Nat) : WALBlockRef × Nat :=
  let hasImage := forkFlags &&& 0x10 ≠ 0
  let hasData := forkFlags &&& 0x20 ≠ 0
  let hasSameRel := forkFlags &&& 0x40 ≠ 0
  let (spc, db, rel, hasRel, pos1) :=
    if ¬hasSameRel ∧ pos + 12 ≤ data.length then
      (u32 data pos, u32 data (pos + 4), u32 data (pos + 8), true, pos + 12)
    else (0, 0, 0, false, pos)
  let (blockNum, pos2) :=
    if pos1 + 4 ≤ data.length then (u32 data pos1, pos1 + 4) else (0, pos1)
  let pos3 :=
    if hasImage ∧ pos2 + 2 ≤ data.length then pos2 + 2 + u16 data pos2 else pos2
  let pos4 :=
    if hasData ∧ pos3 + 2 ≤ data.length then pos3 + 2 + u16 data pos3 else pos3
  (⟨blockID, forkFlags &&& 0x0F, forkFlags, spc, db, rel, hasRel, blockNum⟩, pos4)

/-- `parseBlockRefs` walks the block-reference trailer of a record: each
entry is a block id (0xFF, 0xFE or above 32 ends the walk), fork flags, an
optional relation identifier, a block number, and skipped image and data
payloads. -/
def parseBlockRefs (data : Bytes) : Nat → List WALBlockRef
  | pos =>
    if h : pos < data.length then
      let blockID := data.getD pos 0
      if blockID = 0xFF ∨ blockID = 0xFE then []
      else if 32 < blockID then []
      else if data.length ≤ pos + 1 then []
      else
        let step := parseOneBlockRef data blockID (data.getD (pos + 1) 0) (pos + 2)
        step.1 :: parseBlockRefs data (max step.2 (pos + 2))
    else []
termination_by pos => data.length - pos
decreasing_by
  simp only [Nat.max_def]
  split <;> omega

/-- `parseXLogRecord` decodes a record header at absolute offset `pos`: the
total length must be between the 24-byte header size and twice the page
size; block references follow when the record extends past its header and
fits the buffer. -/
def parseXLogRecord (data : Bytes) (pos : Nat) (lsn : Nat) : Option WALRecord :=
  if data.length < pos + XLogRecordSize then none
  else
    let totalLen := u32 data pos
    if totalLen < XLogRecordSize ∨ WALPageSize * 2 < totalLen then none
    else
      let blocks :=
        if XLogRecordSize < totalLen ∧ pos + totalLen ≤ data.length then
          parseBlockRefs ((data.drop (pos + XLogRecordSize)).take (totalLen - XLogRecordSize)) 0
        else []
      some
        { TotalLen := totalLen
          TransactionID := u32 data (pos + 4)
          PrevLSN := u64 data (pos + 8)
          Info := data.getD (pos + 16) 0
          ResourceMgr := data.getD (pos + 17) 0
          CRC := u32 data (pos + 20)
          LSN := lsn
          Blocks := blocks }

/-- Any record produced by `parseXLogRecord` has a total length of at least
the 24-byte header. -/
theorem parseXLogRecord_totalLen {data : Bytes} {pos lsn : Nat} {rec : WALRecord}
    (h : parseXLogRecord data pos lsn = some rec) : XLogRecordSize ≤ rec.TotalLen := by
  simp only [parseXLogRecord] at h
  split at h
  · cases h
  · split at h
    · cases h
    · cases h
      simp only []
      omega

/-- Alignment to 8 never moves a position down. -/
theorem le_align8 (n : Nat) : n ≤ align8 n := by
  unfold align8
  omega

/-- Record loop of `parseWALPage`: starting at `pos`, parse records until
the page has no room for a header, zero padding begins, or a record header
is invalid, advancing by the 8-byte-aligned record length. -/
def walRecords (data : Bytes) (baseOffset : Nat) (pos : Nat) : List WALRecord :=
  if h : pos + XLogRecordSize ≤ data.length then
    if isZeroPadding (data.drop pos) then []
    else
      match hrec : parseXLogRecord data pos (baseOffset + pos) with
      | none => []
      | some rec => rec :: walRecords data baseOffset (align8 (pos + rec.TotalLen))
  else []
termination_by data.length - pos
decreasing_by
  have h24 := parseXLogRecord_totalLen hrec
  have ha := le_align8 (pos + rec.TotalLen)
  simp only [XLogRecordSize] at h24 h
  omega

/-- `parseWALPage` parses one WAL page at absolute offset `baseOffset`: the
magic must belong to a known engine version; the header is 24 or 40 bytes
by the long-header flag; when the first-record-is-continuation flag is set
the continuation prefix of `RemLen` bytes is skipped and the position
8-byte aligned; then records are parsed. -/
def parseWALPage (data : Bytes) (baseOffset : Nat) : Except String (List WALRecord) :=
  if data.length < ShortHeaderSize then .error "page too small"
  else
    let header := parsePageHeader data
    if ¬isValidMagic header.Magic then .error "invalid magic"
    else
      let hs := if header.Info &&& XLP_LONG_HEADER ≠ 0 then LongHeaderSize else ShortHeaderSize
      let start :=
        if header.Info &&& XLP_FIRST_IS_CONTRECORD ≠ 0 ∧ 0 < header.RemLen then
          align8 (hs + header.RemLen)
        else hs
      .ok (walRecords data baseOffset start)

/-! ## Type identifiers and alignment (`typeAlign`, `alignFromChar`) -/

/-- Well-known type identifier: boolean. -/
def OidBool : Int := 16
/-- Well-known type identifier: byte array. -/
def OidBytea : Int := 17
/-- Well-known type identifier: single character. -/
def OidChar : Int := 18
/-- Well-known type identifier: name. -/
def OidName : Int := 19
/-- Well-known type identifier: 8-byte integer. -/
def OidInt8 : Int := 20
/-- Well-known type identifier: 2-byte integer. -/
def OidInt2 : Int := 21
/-- Well-known type identifier: 4-byte integer. -/
def OidInt4 : Int := 23
/-- Well-known type identifier: text. -/
def OidText : Int := 25
/-- Well-known type identifier: object identifier. -/
def OidOid : Int := 26
/-- Well-known type identifier: tuple identifier. -/
def OidTid : Int := 27
/-- Well-known type identifier: transaction identifier. -/
def OidXid : Int := 28
/-- Well-known type identifier: command identifier. -/
def OidCid : Int := 29
/-- Well-known type identifier: JSON text. -/
def OidJSON : Int := 114
/-- Well-known type identifier: XML. -/
def OidXML : Int := 142
/-- Well-known type identifier: point. -/
def OidPoint : Int := 600
/-- Well-known type identifier: line segment. -/
def OidLseg : Int := 601
/-- Well-known type identifier: geometric path. -/
def OidPath : Int := 602
/-- Well-known type identifier: box. -/
def OidBox : Int := 603
/-- Well-known type identifier: polygon. -/
def OidPolygon : Int := 604
/-- Well-known type identifier: line. -/
def OidLine : Int := 628
/-- Well-known type identifier: CIDR network address. -/
def OidCidr : Int := 650
/-- Well-known type identifier: 4-byte float. -/
def OidFloat4 : Int := 700
/-- Well-known type identifier: 8-byte float. -/
def OidFloat8 : Int := 701
/-- Well-known type identifier: circle. -/
def OidCircle : Int := 718
/-- Well-known type identifier: 8-byte MAC address. -/
def OidMacaddr8 : Int := 774
/-- Well-known type identifier: money. -/
def OidMoney : Int := 790
/-- Well-known type identifier: MAC address. -/
def OidMacaddr : Int := 829
/-- Well-known type identifier: inet network address. -/
def OidInet : Int := 869
/-- Well-known type identifier: blank-padded character string. -/
def OidBpchar : Int := 1042
/-- Well-known type identifier: varchar. -/
def OidVarchar : Int := 1043
/-- Well-known type identifier: date. -/
def OidDate : Int := 1082
/-- Well-known type identifier: time of day. -/
def OidTime : Int := 1083
/-- Well-known type identifier: timestamp. -/
def OidTimestamp : Int := 1114
/-- Well-known type identifier: timestamp with time zone. -/
def OidTimestampTZ : Int := 1184
/-- Well-known type identifier: interval. -/
def OidInterval : Int := 1186
/-- Well-known type identifier: time of day with time zone. -/
def OidTimeTZ : Int := 1266
/-- Well-known type identifier: fixed bit string. -/
def OidBit : Int := 1560
/-- Well-known type identifier: variable bit string. -/
def OidVarbit : Int := 1562
/-- Well-known type identifier: numeric. -/
def OidNumeric : Int := 1700
/-- Well-known type identifier: universally unique identifier. -/
def OidUUID : Int := 2950
/-- Well-known type identifier: log sequence number. -/
def OidPgLsn : Int := 3220
/-- Well-known type identifier: text-search vector. -/
def OidTsvector : Int := 3614
/-- Well-known type identifier: text-search query. -/
def OidTsquery : Int := 3615
/-- Well-known type identifier: binary JSON. -/
def OidJSONB : Int := 3802
/-- Well-known type identifier: int4 range. -/
def OidInt4Range : Int := 3904
/-- Well-known type identifier: numeric range. -/
def OidNumRange : Int := 3906
/-- Well-known type identifier: timestamp range. -/
def OidTsRange : Int := 3908
/-- Well-known type identifier: zoned timestamp range. -/
def OidTsTzRange : Int := 3910
/-- Well-known type identifier: date range. -/
def OidDateRange : Int := 3912
/-- Well-known type identifier: int8 range. -/
def OidInt8Range : Int := 3926
/-- Well-known type identifier: JSON path. -/
def OidJSONPath : Int := 4072

/-- `alignFromChar` converts the engine's alignment letter to bytes, or 0
when the letter is unknown. -/
def alignFromChar (c : Nat) : Nat :=
  if c = 99 then 1       -- letter c
  else if c = 115 then 2 -- letter s
  else if c = 105 then 4 -- letter i
  else if c = 100 then 8 -- letter d
  else 0

/-- Alignment cases of the `typeAlign` switch, by type identifier; 0 means
no case matched (no case of the switch yields 0). -/
def typeAlignOfOid (typID : Int) : Nat :=
  if typID = OidInt8 ∨ typID = OidFloat8 ∨ typID = OidTimestamp ∨
     typID = OidTimestampTZ ∨ typID = OidTime ∨ typID = OidMoney ∨ typID = OidPgLsn then 8
  else if typID = OidPoint ∨ typID = OidLseg ∨ typID = OidBox ∨ typID = OidLine ∨
     typID = OidCircle then 8
  else if typID = OidInterval ∨ typID = OidTimeTZ then 8
  else if typID = OidInt4 ∨ typID = OidOid ∨ typID = OidFloat4 ∨ typID = OidDate ∨
     typID = OidXid ∨ typID = OidCid then 4
  else if typID = OidText ∨ typID = OidVarchar ∨ typID = OidBpchar ∨ typID = OidBytea ∨
     typID = OidJSON ∨ typID = OidJSONB ∨ typID = OidXML then 4
  else if typID = OidNumeric ∨ typID = OidInet ∨ typID = OidCidr ∨ typID = OidPath ∨
     typID = OidPolygon then 4
  else if typID = OidBit ∨ typID = OidVarbit ∨ typID = OidTsvector ∨ typID = OidTsquery ∨
     typID = OidJSONPath then 4
  else if typID = OidInt4Range ∨ typID = OidInt8Range ∨ typID = OidNumRange ∨
     typID = OidDateRange ∨ typID = OidTsRange ∨ typID = OidTsTzRange then 4
  else if typID = OidInt2 ∨ typID = OidTid then 2
  else if typID = OidBool ∨ typID = OidChar ∨ typID = OidName ∨ typID = OidUUID ∨
     typID = OidMacaddr ∨ typID = OidMacaddr8 then 1
  else 0

/-- `typeAlign` derives the alignment of a column from its type identifier,
falling back to the smallest power of two covering a fixed length and to 4
for variable-length types. -/
def typeAlign (typID length : Int) : Nat :=
  if typeAlignOfOid typID ≠ 0 then typeAlignOfOid typID
  else if length = -1 then 4
  else if 8 ≤ length then 8
  else if 4 ≤ length then 4
  else if 2 ≤ length then 2
  else 1

/-! ## Tuple decoding (`DecodeTuple`, `readValue` and helpers) -/

/-- Column of a schema: name, type identifier, declared length (−1 for
varlena, 0 for null-terminated), attribute number, alignment letter. -/
structure Column where
  Name : String
  TypID : Int
  Len : Int
  Num : Int
  Align : Nat
deriving Repr, DecidableEq

/-- Modelled from the spec: visibility bits of a heap tuple header, derived
from the info mask.  The numeric header fields (xmin, xmax, ctid, masks)
are not needed by any claim and are not carried. -/
structure HeapHeader where
  XminCommitted : Bool
  XmaxCommitted : Bool
  XmaxInvalid : Bool
deriving Repr, DecidableEq

/-- Modelled from the spec: a heap tuple as the decoder sees it — the
visibility header, the optional null bitmap, and the payload starting at
`hoff`. -/
structure HeapTupleData where
  Header : HeapHeader
  Bitmap : Option Bytes
  Data : Bytes
deriving Repr, DecidableEq

/-- Modelled from the spec: a tuple is visible iff xmin is committed and
xmax is invalid or uncommitted. -/
def HeapTupleData.IsVisible (t : HeapTupleData) : Bool :=
  t.Header.XminCommitted && (t.Header.XmaxInvalid || !t.Header.XmaxCommitted)

/-- Modelled from the spec: the null bitmap reports column `num` null when
bit `num − 1` is 0; a tuple without a bitmap has no null columns. -/
def HeapTupleData.IsNull (t : HeapTupleData) (num : Int) : Bool :=
  match t.Bitmap with
  | none => false
  | some bm =>
    if num ≤ 0 then false
    else
      let k := (num - 1).toNat
      (bm.getD (k / 8) 0 >>> (k % 8)) &&& 1 == 0

/-- `isShortVarlena` checks whether the next byte starts a short varlena
header: low bit set but not the external-pointer tag 0x01. -/
def isShortVarlena (data : Bytes) : Bool :=
  match data with
  | [] => false
  | b :: _ => b % 2 == 1 && b != 1

/-- Modelled from the spec: the typed interpretation of a decoded byte
slice.  No claim inspects decoded representations, so values are carried as
their raw bytes — the spec's behaviour for unknown type identifiers. -/
def DecodeType (b : Bytes) (typID : Int) : Bytes :=
  b

/-- Modelled from the spec: `read_varlena` returns the payload and the bytes
consumed, distinguishing the five header forms of §4.1: 4-byte inline
(uncompressed and compressed, total length in the upper 30 bits), 1-byte
short (total length in the upper 7 bits), and the external-pointer tags
0x01, 0x02, 0x12 whose 18 bytes are returned whole.  Inline compressed
payloads are returned still compressed. -/
def ReadVarlena (data : Bytes) : Option Bytes × Nat :=
  match data with
  | [] => (none, 0)
  | b0 :: _ =>
    if b0 = 0x01 ∨ b0 = 0x02 ∨ b0 = 0x12 then (some (data.take 18), 18)
    else if b0 % 2 = 1 then
      (some ((data.take (b0 >>> 1)).drop 1), b0 >>> 1)
    else if data.length < 4 then (none, 0)
    else
      (some ((data.take (u32 data 0 >>> 2)).drop 4), u32 data 0 >>> 2)

/-- `readValue` consumes one column value at `offset`: a positive length
reads exactly that many bytes, −1 reads a varlena, anything else reads to
the next null byte; the bytes are passed to the type decoder. -/
def readValue (data : Bytes) (offset : Nat) (typID length : Int) : Option Bytes × Nat :=
  if data.length ≤ offset then (none, 0)
  else
    let remaining := data.drop offset
    if 0 < length then
      if remaining.length < length.toNat then (none, 0)
      else (some (DecodeType (remaining.take length.toNat) typID), length.toNat)
    else if length = -1 then
      match ReadVarlena remaining with
      | (none, consumed) => (none, max consumed 1)
      | (some val, consumed) => (some (DecodeType val typID), consumed)
    else
      match remaining.findIdx? (fun b => b == 0) with
      | some i => (some (remaining.take i), i + 1)
      | none => (some remaining, remaining.length)

/-- Decoded row: column name to value, null recorded as `none`, in schema
order (the source stores a map keyed by column name). -/
abbrev Row := List (String × Option Bytes)

/-- Alignment decision recorded for one column while decoding: the nominal
alignment (schema letter if known, else derived from the type), the
alignment actually used, the offset at which the value was decoded, and
whether the short-varlena exception fired. -/
structure DecodeStep where
  nominal : Nat
  used : Nat
  offset : Nat
  exc : Bool
deriving Repr, DecidableEq

/-- Alignment resolution for one column at `offset`: the nominal alignment
is the schema letter when known, else derived from the type identifier; it
is downgraded to 1 when the column is a varlena (`Len = −1`) and the next
unconsumed byte is a short-varlena header; the offset is rounded up to the
alignment used. -/
def colStep (t : HeapTupleData) (col : Column) (offset : Nat) : DecodeStep :=
  let a0 := alignFromChar col.Align
  let nominal := if a0 = 0 then typeAlign col.TypID col.Len else a0
  let exc := col.Len == -1 && decide (offset < t.Data.length) &&
    isShortVarlena (t.Data.drop offset)
  let colAlign := if exc then 1 else nominal
  ⟨nominal, colAlign, align offset colAlign, exc⟩

/-- Column walk of `DecodeTuple`: for each column, resolve the alignment and
aligned offset through `colStep`, record null from the bitmap or consume
the value.  Also returns the per-column alignment trace. -/
def decodeCols (t : HeapTupleData) (offset idx : Nat) :
    List Column → Row × List DecodeStep
  | [] => ([], [])
  | col :: rest =>
    let num : Int := if col.Num = 0 then (idx : Int) + 1 else col.Num
    let step := colStep t col offset
    if t.IsNull num then
      let next := decodeCols t step.offset (idx + 1) rest
      ((col.Name, none) :: next.1, step :: next.2)
    else
      let rv := readValue t.Data step.offset col.TypID col.Len
      let next := decodeCols t (step.offset + rv.2) (idx + 1) rest
      ((col.Name, rv.1) :: next.1, step :: next.2)

/-- `DecodeTuple` decodes a tuple against a column schema; a tuple with an
empty payload yields `none`. -/
def DecodeTuple (t : HeapTupleData) (columns : List Column) : Option Row :=
  if t.Data.isEmpty then none
  else some (decodeCols t 0 0 columns).1

/-- Alignment trace of decoding a tuple against a schema. -/
def decodeSteps (t : HeapTupleData) (columns : List Column) : List DecodeStep :=
  (decodeCols t 0 0 columns).2

/-! ## Page parsing and heap reading (modelled page layer, `ReadTuples`,
`ReadRows`, `ReadRowsWithDeleted`) -/

/-- A tuple found on a page: offset of the page in the file, offset of the
tuple in the page, and the parsed tuple. -/
structure TupleEntry where
  PageOffset : Nat
  ItemOffset : Nat
  Tuple : HeapTupleData
deriving Repr, DecidableEq

/-- Modelled from the spec: parse a heap tuple at an item pointer — 23-byte
fixed header with `hoff` at byte 22 and the info masks at bytes 18 and 20;
when the has-null bit (0x0001) is set a bitmap of `ceil(nattrs/8)` bytes
follows the fixed header; the payload starts at `hoff`.  The visibility
booleans come from the committed and invalid info-mask bits. -/
def parseHeapTuple (tup : Bytes) : Option HeapTupleData :=
  if tup.length < 23 then none
  else
    let infomask2 := u16 tup 16
    let infomask := u16 tup 18
    let hoff := tup.getD 22 0
    if hoff < 23 ∨ tup.length < hoff then none
    else
      let nattrs := infomask2 &&& 0x07FF
      let bitmap :=
        if infomask &&& 0x0001 ≠ 0 then some ((tup.drop 23).take ((nattrs + 7) / 8))
        else none
      some
        { Header :=
            { XminCommitted := infomask &&& 0x0100 ≠ 0
              XmaxCommitted := infomask &&& 0x0400 ≠ 0
              XmaxInvalid := infomask &&& 0x0800 ≠ 0 }
          Bitmap := bitmap
          Data := tup.drop hoff }

/-- Modelled from the spec: parse one fixed-size page — read `lower`,
`upper`, `special` from the 24-byte header and bail when the bounds are out
of range; walk the item-pointer array from the header to `lower`, skipping
pointers with a zero offset or length or extending past the page; extract
and parse each tuple. -/
def ParsePage (page : Bytes) : List TupleEntry :=
  if page.length < PageSize then []
  else
    let lower := u16 page 12
    let upper := u16 page 14
    let special := u16 page 16
    if ¬(headerSize ≤ lower ∧ lower ≤ upper ∧ upper ≤ special ∧ special ≤ PageSize) then []
    else
      (List.range ((lower - headerSize) / itemIDSize)).filterMap fun k =>
        let ptr := u32 page (headerSize + itemIDSize * k)
        let off := ptr &&& 0x7FFF
        let len := (ptr >>> 17) &&& 0x7FFF
        if off = 0 ∨ len = 0 ∨ PageSize < off + len then none
        else
          match parseHeapTuple ((page.drop off).take len) with
          | none => none
          | some t => some ⟨0, off, t⟩

/-- `ReadTuples` walks every full page of a heap file in order, keeping all
tuples or only visible ones, and stamps each entry with its page offset. -/
def ReadTuples (data : Bytes) (visibleOnly : Bool) : List TupleEntry :=
  (List.range (data.length / PageSize)).flatMap fun i =>
    (ParsePage ((data.drop (i * PageSize)).take PageSize)).filterMap fun e =>
      if !visibleOnly || e.Tuple.IsVisible then
        some { e with PageOffset := i * PageSize }
      else none

/-- `ReadRows` decodes tuples against a schema, dropping tuples that decode
to null. -/
def ReadRows (data : Bytes) (columns : List Column) (visibleOnly : Bool) : List Row :=
  (ReadTuples data visibleOnly).filterMap fun e => DecodeTuple e.Tuple columns

/-- Partition walk of `ReadRowsWithDeleted` over parsed entries: a decodable
tuple goes into the first list when visible and into the second when its
xmax is committed and the xmax-invalid bit is clear. -/
def splitRows (columns : List Column) : List TupleEntry → List Row × List Row
  | [] => ([], [])
  | e :: es =>
    let rest := splitRows columns es
    match DecodeTuple e.Tuple columns with
    | none => rest
    | some row =>
      if e.Tuple.IsVisible then (row :: rest.1, rest.2)
      else if e.Tuple.Header.XmaxCommitted && !e.Tuple.Header.XmaxInvalid then
        (rest.1, row :: rest.2)
      else rest

/-- `ReadRowsWithDeleted` returns visible and deleted-but-retained rows
separately from one pass over all tuples. -/
def ReadRowsWithDeleted (data : Bytes) (columns : List Column) : List Row × List Row :=
  splitRows columns (ReadTuples data false)

/-- A deleted but not vacuumed row: page offset, decoded values when a
schema was given, and the payload size. -/
structure DeletedRow where
  PageOffset : Nat
  Data : Option Row
  RawSize : Nat
deriving Repr, DecidableEq

/-- `ReadDeletedRows` scans all tuples for those whose xmax is committed
and whose xmax-invalid bit is clear. -/
def ReadDeletedRows (data : Bytes) (columns : List Column) : List DeletedRow :=
  (ReadTuples data false).filterMap fun e =>
    if e.Tuple.Header.XmaxCommitted && !e.Tuple.Header.XmaxInvalid then
      some ⟨e.PageOffset,
        if columns.isEmpty then none else DecodeTuple e.Tuple columns,
        e.Tuple.Data.length⟩
    else none

/-! ## Dump orchestrator (`DumpDataDir`, `dumpDatabase`,
`DumpDatabaseFromFiles`, `dumpTableFromReader`) -/

/-- Database catalog row. -/
structure DatabaseInfo where
  OID : Nat
  Name : String
deriving Repr, DecidableEq

/-- Relation catalog row. -/
structure TableInfo where
  OID : Nat
  Name : String
  Filenode : Nat
  Kind : String
deriving Repr, DecidableEq

/-- Attribute catalog row. -/
structure AttrInfo where
  Name : String
  TypID : Int
  Len : Int
  Num : Int
  Align : Nat
deriving Repr, DecidableEq

/-- Options of the dump operation. -/
structure Options where
  DatabaseFilter : String
  TableFilter : String
  ListOnly : Bool
  SkipSystemTables : Bool
  PostgresVersion : Int
deriving Repr, DecidableEq

/-- Column description attached to a table dump.  The source also carries a
display string naming the type (`TypeName`), presentation only. -/
structure ColumnInfo where
  Name : String
  TypID : Int
deriving Repr, DecidableEq

/-- Dump of a single table. -/
structure TableDump where
  OID : Nat
  Name : String
  Filenode : Nat
  Kind : String
  Columns : List ColumnInfo
  Rows : List Row
  RowCount : Nat
deriving Repr, DecidableEq

/-- Dump of a single database. -/
structure DatabaseDump where
  OID : Nat
  Name : String
  Tables : List TableDump
deriving Repr, DecidableEq

/-- Complete dump output. -/
structure DumpResult where
  Databases : List DatabaseDump
deriving Repr, DecidableEq

/-- File access abstraction: relative path to contents or error.  The
source reads through `os.ReadFile` rooted at the data directory. -/
abbrev FS := String → Except String Bytes

/-- Modelled from the spec: the three fixed-OID catalog parsers
(`ParsePGDatabase`, `ParsePGClass`, `ParsePGAttribute`) live outside the
repository files available here; the orchestrator is embedded over them as
parameters.  `parsePGClass` returns filenode-keyed relations and
`parsePGAttribute` relation-OID-keyed attribute lists, as association
lists standing for the Go maps. -/
structure Catalogs where
  parsePGDatabase : Bytes → List DatabaseInfo
  parsePGClass : Bytes → List (Nat × TableInfo)
  parsePGAttribute : Bytes → Int → List (Nat × List AttrInfo)

/-- Substring test on character lists. -/
def listSub (p : List Char) : List Char → Bool
  | [] => p.isEmpty
  | c :: t => p.isPrefixOf (c :: t) || listSub p t

/-- Case-insensitive substring test,
`strings.Contains(strings.ToLower(s), strings.ToLower(pat))`. -/
def containsLower (s pat : String) : Bool :=
  listSub pat.toLower.toList s.toLower.toList

/-- `dumpTableFromReader` dumps one relation: the column schema is always
attached; unless `ListOnly` is set the heap file is read through the reader
and decoded, and a read failure leaves the dump with schema only and no
rows. -/
def dumpTableFromReader (filenode : Nat) (tableInfo : TableInfo)
    (attributes : List (Nat × List AttrInfo)) (tableReader : Nat → Except String Bytes)
    (opts : Options) : TableDump :=
  let attrs := (attributes.lookup tableInfo.OID).getD []
  let base : TableDump :=
    { OID := tableInfo.OID
      Name := tableInfo.Name
      Filenode := filenode
      Kind := tableInfo.Kind
      Columns := attrs.map fun a => ⟨a.Name, a.TypID⟩
      Rows := []
      RowCount := 0 }
  if opts.ListOnly then base
  else
    match tableReader filenode with
    | .error _ => base
    | .ok tableData =>
      let columns : List Column := attrs.map fun a => ⟨a.Name, a.TypID, a.Len, a.Num, 0⟩
      let rows := ReadRows tableData columns true
      { base with Rows := rows, RowCount := rows.length }

/-- `DumpDatabaseFromFiles` dumps a database from pre-read catalog files:
relations are filtered by kind, the system-table name test and the table
filter, and each survivor is dumped through the reader. -/
def DumpDatabaseFromFiles (P : Catalogs) (classData attrData : Bytes)
    (tableReader : Nat → Except String Bytes) (opts : Options) : DatabaseDump :=
  let tables := P.parsePGClass classData
  let attributes := P.parsePGAttribute attrData opts.PostgresVersion
  { OID := 0
    Name := ""
    Tables := tables.filterMap fun ft =>
      let tableInfo := ft.2
      if tableInfo.Kind ≠ "r" ∧ tableInfo.Kind ≠ "" then none
      else if opts.SkipSystemTables ∧ tableInfo.Name.startsWith "pg_" then none
      else if opts.TableFilter ≠ "" ∧ ¬containsLower tableInfo.Name opts.TableFilter then none
      else some (dumpTableFromReader ft.1 tableInfo attributes tableReader opts) }

/-- `dumpDatabase` reads the relation and attribute catalogs of one
database; a missing catalog silently yields no dump, otherwise the
per-relation reader serves the heap files. -/
def dumpDatabase (P : Catalogs) (fs : FS) (db : DatabaseInfo) (opts : Options) :
    Option DatabaseDump :=
  let base := "base/" ++ toString db.OID
  match fs (base ++ "/1259") with
  | .error _ => none
  | .ok classData =>
    match fs (base ++ "/1249") with
    | .error _ => none
    | .ok attrData =>
      let reader : Nat → Except String Bytes := fun fn => fs (base ++ "/" ++ toString fn)
      let result := DumpDatabaseFromFiles P classData attrData reader opts
      some { result with OID := db.OID, Name := db.Name }

/-- `DumpDataDir` dumps all databases of a cluster: a missing database
catalog (`global/1262`) is the one top-level failure; template databases
and filtered names are skipped, and a database whose own catalogs are
missing is dropped. -/
def DumpDataDir (P : Catalogs) (fs : FS) (opts : Options) : Except String DumpResult :=
  match fs "global/1262" with
  | .error e => .error e
  | .ok dbData =>
    .ok
      { Databases := (P.parsePGDatabase dbData).filterMap fun db =>
          if db.Name.startsWith "template" then none
          else if opts.DatabaseFilter ≠ "" ∧ db.Name ≠ opts.DatabaseFilter then none
          else dumpDatabase P fs db opts }

/-! ## Concrete buffers used by counterexamples and witnesses -/

/-- Page whose header has `lower = 100` and `upper = 50`, otherwise zero. -/
def c9Page : Bytes :=
  [0, 0, 0, 0, 0, 0, 0, 0, 0, 0, 0, 0, 100, 0, 50, 0] ++ List.replicate 8176 0

/-- Relmap buffer with valid magic, two mappings sharing the OID 1: (1, 10)
and (1, 20). -/
def c6Data : Bytes :=
  [0x17, 0x27, 0x59, 0, 2, 0, 0, 0, 1, 0, 0, 0, 10, 0, 0, 0, 1, 0, 0, 0, 20, 0, 0, 0] ++
  List.replicate 488 0

/-- Relmap buffer with valid magic and the two mappings of the repository
test: (1262, 1262) and (1259, 16384). -/
def c6Good : Bytes :=
  [0x17, 0x27, 0x59, 0, 2, 0, 0, 0, 0xEE, 4, 0, 0, 0xEE, 4, 0, 0,
   0xEB, 4, 0, 0, 0, 0x40, 0, 0] ++ List.replicate 488 0

/-! ## Theorems -/

/-- Bounds of the two halves produced by `parseColonParts`: each is `-1` or
comes from a parse that rejected negative numbers. -/
theorem parseColonParts_ok {p0 p1 : List Char} {br : BlockRange}
    (h : parseColonParts p0 p1 = .ok br) :
    (br.Start = -1 ∨ 0 ≤ br.Start) ∧ (br.End = -1 ∨ 0 ≤ br.End) := by
  unfold parseColonParts at h
  split at h
  · cases h
  · rename_i s0 hs0
    split at h
    · cases h
    · rename_i s1 hs1
      injection h with h2
      have e1 : br.Start = s0 := by rw [← h2]
      have e2 : br.End = s1 := by rw [← h2]
      have b0 : s0 = -1 ∨ 0 ≤ s0 := by
        split at hs0
        · cases hs0; exact Or.inl rfl
        · split at hs0
          · cases hs0
          · rename_i v hveq
            split at hs0
            · cases hs0
            · rename_i hv
              injection hs0 with h3
              omega
      have b1 : s1 = -1 ∨ 0 ≤ s1 := by
        split at hs1
        · cases hs1; exact Or.inl rfl
        · split at hs1
          · cases hs1
          · rename_i v hveq
            split at hs1
            · cases hs1
            · rename_i hv
              injection hs1 with h3
              omega
      exact ⟨by omega, by omega⟩

/-- C7: the block-range string parser yields no range on "", (5,5) on "5",
(0,10) on "0:10", (5,−1) on "5:", (−1,20) on ":20", and errors on "10:5",
"-1:5" and "abc"; in general every successful parse has both bounds at
least −1 and a start no greater than the end when both are present. -/
theorem block_range_parser_cases :
    ParseBlockRange "".toList = .ok none ∧
    ParseBlockRange "5".toList = .ok (some ⟨5, 5⟩) ∧
    ParseBlockRange "0:10".toList = .ok (some ⟨0, 10⟩) ∧
    ParseBlockRange "5:".toList = .ok (some ⟨5, -1⟩) ∧
    ParseBlockRange ":20".toList = .ok (some ⟨-1, 20⟩) ∧
    (∃ e, ParseBlockRange "10:5".toList = .error e) ∧
    (∃ e, ParseBlockRange "-1:5".toList = .error e) ∧
    (∃ e, ParseBlockRange "abc".toList = .error e) ∧
    (∀ s br, ParseBlockRange s = .ok (some br) →
      -1 ≤ br.Start ∧ -1 ≤ br.End ∧ (0 ≤ br.Start → 0 ≤ br.End → br.Start ≤ br.End)) := by
  refine ⟨rfl, rfl, rfl, rfl, rfl, ⟨_, rfl⟩, ⟨_, rfl⟩, ⟨_, rfl⟩, ?_⟩
  intro s br h
  simp only [ParseBlockRange] at h
  split at h
  · simp at h
  · split at h
    · cases h
    · rename_i br' hbr'
      split at h
      · cases h
      · rename_i hrange
        cases h
        have hb : (br.Start = -1 ∨ 0 ≤ br.Start) ∧ (br.End = -1 ∨ 0 ≤ br.End) := by
          split at hbr'
          · exact parseColonParts_ok hbr'
          · split at hbr'
            · cases hbr'
            · rename_i v hveq
              split at hbr'
              · cases hbr'
              · rename_i hv
                injection hbr' with h2
                have e1 : br.Start = v := by rw [← h2]
                have e2 : br.End = v := by rw [← h2]
                exact ⟨Or.inr (by omega), Or.inr (by omega)⟩
        refine ⟨by omega, by omega, ?_⟩
        intro h1 h2
        by_contra hlt
        exact hrange ⟨h1, h2, by omega⟩

/-- Witness for `block_range_parser_cases` at the input "5". -/
theorem block_range_parser_cases_witness :
    -1 ≤ (5 : Int) ∧ -1 ≤ (5 : Int) ∧ (0 ≤ (5 : Int) → 0 ≤ (5 : Int) → (5 : Int) ≤ 5) :=
  block_range_parser_cases.2.2.2.2.2.2.2.2 "5".toList ⟨5, 5⟩ rfl

/-- C2 counterexample: a tuple with empty payload decodes to `none`, not to
an empty row. -/
theorem decode_tuple_empty_cex :
    DecodeTuple ⟨⟨false, false, false⟩, none, []⟩ [⟨"a", OidInt4, 4, 1, 105⟩] = none ∧
    DecodeTuple ⟨⟨false, false, false⟩, none, []⟩ [⟨"a", OidInt4, 4, 1, 105⟩] ≠ some [] := by
  exact ⟨rfl, by simp [DecodeTuple]⟩

/-- C2 (amended): decoding a tuple whose payload is empty returns null
(`none`), for every column schema. -/
theorem decode_tuple_empty_none (t : HeapTupleData) (columns : List Column)
    (h : t.Data = []) : DecodeTuple t columns = none := by
  simp [DecodeTuple, h]

/-- Witness for `decode_tuple_empty_none` at a concrete tuple and schema. -/
theorem decode_tuple_empty_none_witness :
    DecodeTuple ⟨⟨true, false, true⟩, some [0], []⟩ [⟨"b", OidText, -1, 2, 0⟩] = none :=
  decode_tuple_empty_none _ _ rfl

/-- C9 (amended): for every buffer parsed as a non-empty block whose
`lower` is at least the header size and whose `upper` is at most the page
size, the item count is `(lower − 24) / 4` and the free space is
`upper − lower` when `lower < upper` and 0 otherwise. -/
theorem parse_block_info_counts (data : Bytes) (bn : Nat) (info : BlockInfo)
    (h : ParseBlockInfo data bn = some info) (hne : info.IsEmpty = false)
    (hl : headerSize ≤ info.Lower) (hu : info.Upper ≤ PageSize) :
    info.ItemCount = (info.Lower - 24) / 4 ∧
    info.FreeSpace = (if info.Lower < info.Upper then info.Upper - info.Lower else 0) := by
  simp only [ParseBlockInfo] at h
  split at h
  · cases h
  · split at h
    · cases h
      simp at hne
    · cases h
      refine ⟨?_, rfl⟩
      have hl2 : headerSize ≤ u16 data 12 := hl
      show (if headerSize ≤ u16 data 12 then (u16 data 12 - headerSize) / itemIDSize else 0) = _
      rw [if_pos hl2]
      rfl

/-- Length of the counterexample page. -/
theorem c9Page_length : c9Page.length = 8192 := by
  rw [c9Page, List.length_append, List.length_replicate]
  rfl

/-- The counterexample page is not all zero: byte 12 is 100. -/
theorem c9Page_not_zero : (c9Page.take PageSize).all (fun b => b == 0) = false := by
  have htake : c9Page.take PageSize = c9Page := by
    show c9Page.take 8192 = c9Page
    have h := c9Page_length
    rw [← h, List.take_length]
  rw [htake]
  refine List.all_eq_false.mpr ⟨100, ?_, by decide⟩
  rw [c9Page]
  exact List.mem_append_left _ (by decide)

/-- First twenty bytes of the counterexample page. -/
theorem c9Page_bytes :
    c9Page.getD 0 0 = 0 ∧ c9Page.getD 1 0 = 0 ∧ c9Page.getD 2 0 = 0 ∧ c9Page.getD 3 0 = 0 ∧
    c9Page.getD 4 0 = 0 ∧ c9Page.getD 5 0 = 0 ∧ c9Page.getD 6 0 = 0 ∧ c9Page.getD 7 0 = 0 ∧
    c9Page.getD 8 0 = 0 ∧ c9Page.getD 9 0 = 0 ∧ c9Page.getD 10 0 = 0 ∧ c9Page.getD 11 0 = 0 ∧
    c9Page.getD 12 0 = 100 ∧ c9Page.getD 13 0 = 0 ∧ c9Page.getD 14 0 = 50 ∧
    c9Page.getD 15 0 = 0 ∧ c9Page.getD 16 0 = 0 ∧ c9Page.getD 17 0 = 0 ∧
    c9Page.getD 18 0 = 0 ∧ c9Page.getD 19 0 = 0 := by
  decide

/-- The 64-bit LSN field of the counterexample page. -/
theorem c9Page_u64 : u64 c9Page 0 = 0 := by
  obtain ⟨g0, g1, g2, g3, g4, g5, g6, g7, _⟩ := c9Page_bytes
  unfold u64 u32
  rw [c9Page_length, g0, g1, g2, g3, g4, g5, g6, g7]
  norm_num

/-- The 16-bit header fields of the counterexample page. -/
theorem c9Page_u16 :
    u16 c9Page 8 = 0 ∧ u16 c9Page 10 = 0 ∧ u16 c9Page 12 = 100 ∧ u16 c9Page 14 = 50 ∧
    u16 c9Page 16 = 0 ∧ u16 c9Page 18 = 0 := by
  obtain ⟨g0, g1, g2, g3, g4, g5, g6, g7, g8, g9, g10, g11, g12, g13, g14, g15, g16, g17,
    g18, g19⟩ := c9Page_bytes
  unfold u16
  rw [c9Page_length, g8, g9, g10, g11, g12, g13, g14, g15, g16, g17, g18, g19]
  norm_num

/-- Parsing the counterexample page. -/
theorem c9Page_parse :
    ParseBlockInfo c9Page 0 = some ⟨0, 0, 0, 0, 100, 50, 0, 0, 0, 19, 0, false⟩ := by
  obtain ⟨h8, h10, h12, h14, h16, h18⟩ := c9Page_u16
  unfold ParseBlockInfo
  rw [c9Page_length, c9Page_u64, h8, h10, h12, h14, h16, h18, c9Page_not_zero]
  norm_num [PageSize, headerSize, itemIDSize]

/-- Witness for `parse_block_info_counts` at the page of `c9Page`. -/
theorem parse_block_info_counts_witness :
    (⟨0, 0, 0, 0, 100, 50, 0, 0, 0, 19, 0, false⟩ : BlockInfo).ItemCount = (100 - 24) / 4 ∧
    (⟨0, 0, 0, 0, 100, 50, 0, 0, 0, 19, 0, false⟩ : BlockInfo).FreeSpace =
      (if 100 < 50 then 50 - 100 else 0) :=
  parse_block_info_counts c9Page 0 _ c9Page_parse rfl (by decide) (by decide)

/-- C9 counterexample: on a page with `lower = 100 ≥ 24` and
`upper = 50 ≤ 8192`, the parsed free space is 0, not `upper − lower`
(which is negative). -/
theorem parse_block_info_negative_free_cex :
    ParseBlockInfo c9Page 0 = some ⟨0, 0, 0, 0, 100, 50, 0, 0, 0, 19, 0, false⟩ ∧
    ((0 : Int) ≠ (50 : Int) - 100) := by
  exact ⟨c9Page_parse, by decide⟩

/-- A `find?` by key hits exactly the sought element when keys are unique. -/
theorem find_key_nodup {α β : Type} [DecidableEq β] (key : α → β) (l : List α)
    (hn : (l.map key).Nodup) (m : α) (hm : m ∈ l) :
    l.find? (fun x => key x == key m) = some m := by
  induction l with
  | nil => cases hm
  | cons a t ih =>
    rw [List.find?_cons]
    rcases List.mem_cons.mp hm with rfl | hmt
    · simp
    · have hka : key a ≠ key m := by
        intro heq
        have : key m ∈ t.map key := List.mem_map_of_mem key hmt
        rw [← heq] at this
        exact (List.nodup_cons.mp (by simpa using hn)).1 this
      have : (key a == key m) = false := beq_false_of_ne hka
      rw [this]
      exact ih (List.nodup_cons.mp (by simpa using hn)).2 hmt

/-- C6 (amended): every successfully parsed relmap buffer has the magic
0x592717 and a mapping count in [0, 62]; when the parsed OIDs are pairwise
distinct, `GetFilenode` inverts each mapping, and when the filenodes are
pairwise distinct, `GetOID` does. -/
theorem relmap_parse_props (data : Bytes) (rm : RelMapFile)
    (h : ParseRelMapFile data = .ok rm) :
    rm.Magic = 0x592717 ∧ 0 ≤ rm.NumMappings ∧ rm.NumMappings ≤ 62 ∧
    ((rm.Mappings.map RelMapping.OID).Nodup →
      ∀ m ∈ rm.Mappings, rm.GetFilenode m.OID = m.Filenode) ∧
    ((rm.Mappings.map RelMapping.Filenode).Nodup →
      ∀ m ∈ rm.Mappings, rm.GetOID m.Filenode = m.OID) := by
  simp only [ParseRelMapFile] at h
  split at h
  · cases h
  · split at h
    · cases h
    · rename_i hmagic
      split at h
      · cases h
      · rename_i hnum
        simp only [RelMapMaxMappings] at hnum
        push_neg at hmagic hnum
        cases h
        refine ⟨?_, ?_, ?_, ?_, ?_⟩
        · show u32 data 0 = 0x592717
          simpa [RelMapMagic] using hmagic
        · show (0 : Int) ≤ toInt32 (u32 data 4)
          omega
        · show toInt32 (u32 data 4) ≤ 62
          omega
        · intro hn m hm
          show (match (relMapEntries data (toInt32 (u32 data 4)).toNat 8).find?
              (fun x => x.OID == m.OID) with
            | some x => x.Filenode
            | none => 0) = m.Filenode
          rw [find_key_nodup RelMapping.OID _ hn m hm]
        · intro hn m hm
          show (match (relMapEntries data (toInt32 (u32 data 4)).toNat 8).find?
              (fun x => x.Filenode == m.Filenode) with
            | some x => x.OID
            | none => 0) = m.OID
          rw [find_key_nodup RelMapping.Filenode _ hn m hm]

/-- Witness for `relmap_parse_props` at the repository test buffer. -/
theorem relmap_parse_props_witness :
    RelMapFile.GetFilenode ⟨0x592717, 2, [⟨1262, 1262⟩, ⟨1259, 16384⟩], 0⟩ 1259 = 16384 ∧
    (0 : Int) ≤ 2 := by
  have h := relmap_parse_props c6Good ⟨0x592717, 2, [⟨1262, 1262⟩, ⟨1259, 16384⟩], 0⟩ rfl
  exact ⟨h.2.2.2.1 (by decide) ⟨1259, 16384⟩ (by decide), h.2.1⟩

/-- C6 counterexample: a valid 512-byte relmap buffer may carry two
mappings with the same OID; `GetFilenode` then returns the first mapping's
filenode, so the parsed mapping (1, 20) does not satisfy
`get_filenode(oid) = filenode`. -/
theorem relmap_duplicate_oid_cex :
    ParseRelMapFile c6Data = .ok ⟨0x592717, 2, [⟨1, 10⟩, ⟨1, 20⟩], 0⟩ ∧
    (⟨1, 20⟩ : RelMapping) ∈ [(⟨1, 10⟩ : RelMapping), ⟨1, 20⟩] ∧
    RelMapFile.GetFilenode ⟨0x592717, 2, [⟨1, 10⟩, ⟨1, 20⟩], 0⟩ 1 = 10 ∧
    (10 : Nat) ≠ 20 := by
  exact ⟨rfl, by decide, by decide, by decide⟩

/-- The derived type alignment is always positive. -/
theorem typeAlign_pos (typID length : Int) : 0 < typeAlign typID length := by
  unfold typeAlign
  repeat' split
  all_goals omega

/-- The alignment letter maps to 0 or a positive width. -/
theorem alignFromChar_cases (c : Nat) : alignFromChar c = 0 ∨ 0 < alignFromChar c := by
  unfold alignFromChar
  repeat' split
  all_goals omega

/-- Rounding up to a positive alignment yields a multiple of it. -/
theorem align_mod (off a : Nat) (h : 0 < a) : align off a % a = 0 := by
  unfold align
  rw [if_neg (by omega)]
  exact Nat.mul_mod_left _ _

/-- Each column step either fires the short-varlena exception with
alignment 1, or places the column at a multiple of its nominal alignment. -/
theorem colStep_ok (t : HeapTupleData) (col : Column) (offset : Nat) :
    ((colStep t col offset).exc = true ∧ (colStep t col offset).used = 1) ∨
      (colStep t col offset).offset % (colStep t col offset).nominal = 0 := by
  have hpos : 0 < (if alignFromChar col.Align = 0 then typeAlign col.TypID col.Len
      else alignFromChar col.Align) := by
    rcases alignFromChar_cases col.Align with h | h
    · rw [if_pos h]; exact typeAlign_pos _ _
    · rw [if_neg (by omega)]; exact h
  by_cases hexc : (col.Len == -1 && decide (offset < t.Data.length) &&
      isShortVarlena (t.Data.drop offset)) = true
  · left
    simp [colStep, hexc]
  · right
    simp only [colStep, Bool.not_eq_true] at *
    simp [hexc]
    exact align_mod _ _ hpos

/-- C4: for every tuple and ordered column schema, each column in the
decode trace is placed at an offset that is a multiple of its alignment
(the schema alignment when known, else the one derived from the type
identifier), except when the column is a varlena whose next unconsumed
byte has its low bit set but is not 0x01, in which case the alignment used
for that column is 1. -/
theorem decode_alignment (t : HeapTupleData) (columns : List Column) :
    ∀ s ∈ decodeSteps t columns,
      (s.exc = true ∧ s.used = 1) ∨ s.offset % s.nominal = 0 := by
  suffices H : ∀ cols offset idx, ∀ s ∈ (decodeCols t offset idx cols).2,
      (s.exc = true ∧ s.used = 1) ∨ s.offset % s.nominal = 0 by
    exact fun s hs => H columns 0 0 s hs
  intro cols
  induction cols with
  | nil =>
    intro offset idx s hs
    simp [decodeCols] at hs
  | cons col rest ih =>
    intro offset idx s hs
    simp only [decodeCols] at hs
    split at hs <;> split at hs <;>
      rcases List.mem_cons.mp hs with rfl | hmem <;>
        first
          | exact colStep_ok t col offset
          | exact ih _ _ s hmem

/-- Tuple of the short-varlena witness: payload `0x0B` then "hell". -/
def c4Tuple : HeapTupleData :=
  ⟨⟨true, false, true⟩, none, [0x0B, 104, 101, 108, 108]⟩

/-- Schema of the short-varlena witness: one text column, alignment letter
i. -/
def c4Cols : List Column := [⟨"v", OidText, -1, 1, 105⟩]

/-- Witness for `decode_alignment`: the short-varlena column of `c4Tuple`
fires the exception with alignment 1 (or sits at a multiple of its nominal
alignment). -/
theorem decode_alignment_witness :
    ((⟨4, 1, 0, true⟩ : DecodeStep).exc = true ∧ (⟨4, 1, 0, true⟩ : DecodeStep).used = 1) ∨
      (⟨4, 1, 0, true⟩ : DecodeStep).offset % (⟨4, 1, 0, true⟩ : DecodeStep).nominal = 0 :=
  decode_alignment c4Tuple c4Cols ⟨4, 1, 0, true⟩ (by decide)

/-- C5: `ReadRowsWithDeleted` partitions the decodable tuples by the
visibility predicate — a tuple is placed in the visible list iff xmin is
committed and xmax is invalid or uncommitted, and in the deleted list iff
xmax is committed and the xmax-invalid bit is not set; both lists are
filtered projections of the same decoding pass. -/
theorem read_rows_with_deleted_partition (data : Bytes) (columns : List Column) :
    ReadRowsWithDeleted data columns =
      ((ReadTuples data false).filterMap fun e =>
        match DecodeTuple e.Tuple columns with
        | none => none
        | some row =>
          if e.Tuple.Header.XminCommitted = true ∧
              (e.Tuple.Header.XmaxInvalid = true ∨ e.Tuple.Header.XmaxCommitted = false)
          then some row else none,
       (ReadTuples data false).filterMap fun e =>
        match DecodeTuple e.Tuple columns with
        | none => none
        | some row =>
          if e.Tuple.Header.XmaxCommitted = true ∧ e.Tuple.Header.XmaxInvalid = false
          then some row else none) := by
  unfold ReadRowsWithDeleted
  induction ReadTuples data false with
  | nil => rfl
  | cons e es ih =>
    simp only [splitRows, List.filterMap_cons]
    cases hdt : DecodeTuple e.Tuple columns with
    | none =>
      simp only [hdt]
      exact ih
    | some row =>
      simp only [hdt]
      cases hxminc : e.Tuple.Header.XminCommitted <;>
        cases hxmaxc : e.Tuple.Header.XmaxCommitted <;>
          cases hxmaxi : e.Tuple.Header.XmaxInvalid <;>
            simp_all [HeapTupleData.IsVisible, Prod.ext_iff]


/-- The pglz back-reference copy never grows the output past `rawSize`. -/
theorem pglzCopy_le (start off : Nat) (rawSize : Int) :
    ∀ i length result, (result.length : Int) ≤ max rawSize 0 →
      ((pglzCopy start off rawSize i length result).length : Int) ≤ max rawSize 0 := by
  have H : ∀ k i length result, length - i ≤ k →
      (result.length : Int) ≤ max rawSize 0 →
      ((pglzCopy start off rawSize i length result).length : Int) ≤ max rawSize 0 := by
    intro k
    induction k with
    | zero =>
      intro i length result hk hr
      rw [pglzCopy]
      split
      · rename_i h
        omega
      · exact hr
    | succ k ih =>
      intro i length result hk hr
      rw [pglzCopy]
      split
      · rename_i h
        refine ih (i + 1) length _ (by omega) ?_
        have hm : rawSize ≤ max rawSize 0 := le_max_left _ _
        simp only [List.length_append, List.length_cons, List.length_nil]
        push_cast
        omega
      · exact hr
  exact fun i length result hr => H (length - i) i length result le_rfl hr

/-- The pglz back-reference step never grows the output past `rawSize`. -/
theorem pglzBackref_le (off len : Nat) (rawSize : Int) (result : Bytes)
    (hr : (result.length : Int) ≤ max rawSize 0) :
    ((pglzBackref off len rawSize result).length : Int) ≤ max rawSize 0 := by
  unfold pglzBackref
  split
  · exact hr
  · exact pglzCopy_le _ _ _ 0 len result hr

/-- The pglz control-bit loop never grows the output past `rawSize`. -/
theorem pglzBits_le (data : Bytes) (ctrl : Nat) (rawSize : Int) :
    ∀ bit pos result, (result.length : Int) ≤ max rawSize 0 →
      (((pglzBits data ctrl rawSize bit pos result).2.length : Int) ≤ max rawSize 0) := by
  have H : ∀ k bit pos result, 8 - bit ≤ k → (result.length : Int) ≤ max rawSize 0 →
      (((pglzBits data ctrl rawSize bit pos result).2.length : Int) ≤ max rawSize 0) := by
    intro k
    induction k with
    | zero =>
      intro bit pos result hk hr
      rw [pglzBits]
      split
      · rename_i h
        omega
      · exact hr
    | succ k ih =>
      intro bit pos result hk hr
      rw [pglzBits]
      split
      · rename_i h
        split
        · split
          · exact hr
          · exact ih (bit + 1) (pos + 2) _ (by omega) (pglzBackref_le _ _ _ _ hr)
        · refine ih (bit + 1) (pos + 1) _ (by omega) ?_
          have hm : rawSize ≤ max rawSize 0 := le_max_left _ _
          simp only [List.length_append, List.length_cons, List.length_nil]
          push_cast
          omega
      · exact hr
  exact fun bit pos result hr => H 8 bit pos result (by omega) hr

/-- The pglz outer loop never grows the output past `rawSize`. -/
theorem pglzLoop_le (data : Bytes) (rawSize : Int) :
    ∀ pos result, (result.length : Int) ≤ max rawSize 0 →
      ((pglzLoop data rawSize pos result).length : Int) ≤ max rawSize 0 := by
  have H : ∀ k pos result, data.length - pos ≤ k →
      (result.length : Int) ≤ max rawSize 0 →
      ((pglzLoop data rawSize pos result).length : Int) ≤ max rawSize 0 := by
    intro k
    induction k with
    | zero =>
      intro pos result hk hr
      rw [pglzLoop]
      split
      · rename_i h
        omega
      · exact hr
    | succ k ih =>
      intro pos result hk hr
      rw [pglzLoop]
      split
      · rename_i h
        refine ih _ _ ?_ (pglzBits_le data _ rawSize 0 (pos + 1) result hr)
        have := pglzBits_pos_le data (data.getD pos 0) rawSize 0 (pos + 1) result
        omega
      · exact hr
  exact fun pos result hr => H (data.length - pos) pos result le_rfl hr

/-- C10: the native (pglz-style) decompressor is total — every byte access
is bounds-checked (an out-of-range read yields 0, mirroring the source's
explicit guards) and both loops terminate, which its definition as a total
function witnesses — and every successful output has length at most
`max rawSize 0`. -/
theorem decompress_pglz_bounded (data : Bytes) (rawSize : Int) (out : Bytes)
    (h : decompressPGLZ data rawSize = .ok out) :
    (out.length : Int) ≤ max rawSize 0 := by
  unfold decompressPGLZ at h
  split at h
  · cases h
  · injection h with h2
    subst h2
    exact pglzLoop_le data rawSize 0 [] (by simp)

/-- Witness for `decompress_pglz_bounded`: two literal bytes survive from
a four-byte compressed input with `rawSize = 2`. -/
theorem decompress_pglz_bounded_witness :
    (([65, 66] : Bytes).length : Int) ≤ max 2 0 :=
  decompress_pglz_bounded [0, 65, 66, 67] 2 [65, 66]
    (by simp [decompressPGLZ, pglzLoop, pglzBits])

/-- Inserting a chunk into a list permutes consing it on. -/
theorem insertChunk_perm (c : TOASTChunk) (l : List TOASTChunk) :
    List.Perm (insertChunk c l) (c :: l) := by
  induction l with
  | nil => simp [insertChunk]
  | cons d ds ih =>
    simp only [insertChunk]
    split
    · exact List.Perm.refl _
    · exact (ih.cons d).trans (List.Perm.swap c d ds)

/-- Inserting a chunk into a list sorted by `ChunkSeq` keeps it sorted. -/
theorem insertChunk_pairwise (c : TOASTChunk) (l : List TOASTChunk)
    (h : l.Pairwise fun a b => a.ChunkSeq ≤ b.ChunkSeq) :
    (insertChunk c l).Pairwise fun a b => a.ChunkSeq ≤ b.ChunkSeq := by
  induction l with
  | nil => simp [insertChunk]
  | cons d ds ih =>
    rcases List.pairwise_cons.mp h with ⟨hd, hds⟩
    simp only [insertChunk]
    split
    · rename_i hlt
      refine List.pairwise_cons.mpr ⟨?_, h⟩
      intro b hb
      rcases List.mem_cons.mp hb with rfl | hbm
      · exact le_of_lt hlt
      · exact le_trans (le_of_lt hlt) (hd b hbm)
    · rename_i hnlt
      refine List.pairwise_cons.mpr ⟨?_, ih hds⟩
      intro b hb
      rcases List.mem_cons.mp ((insertChunk_perm c ds).mem_iff.mp hb) with rfl | hbm
      · exact le_of_not_lt hnlt
      · exact hd b hbm

/-- The chunk sort is a permutation. -/
theorem sortChunks_perm (l : List TOASTChunk) : List.Perm (sortChunks l) l := by
  induction l with
  | nil => exact List.Perm.refl _
  | cons c cs ih =>
    simp only [sortChunks]
    exact (insertChunk_perm c (sortChunks cs)).trans (ih.cons c)

/-- The chunk sort yields a list ascending in `ChunkSeq`. -/
theorem sortChunks_pairwise (l : List TOASTChunk) :
    (sortChunks l).Pairwise fun a b => a.ChunkSeq ≤ b.ChunkSeq := by
  induction l with
  | nil => simp [sortChunks]
  | cons c cs ih =>
    simp only [sortChunks]
    exact insertChunk_pairwise c _ ih

/-- C1 (amended): for an uncompressed external pointer with a nonempty
chunk set, reassembly returns exactly the concatenation of the payloads of
the chunks whose `ChunkID` equals the value id, taken in ascending
`ChunkSeq` order — with no truncation of the result to `RawSize`. -/
theorem reassemble_uncompressed_order (zlib : Bytes → Option Bytes)
    (chunks : List TOASTChunk) (valueID : Nat) (p : TOASTPointer)
    (hp : p.IsCompressed = false)
    (hne : (chunks.filter fun c => c.ChunkID == valueID).isEmpty = false) :
    ∃ l : List TOASTChunk,
      List.Perm l (chunks.filter fun c => c.ChunkID == valueID) ∧
      (l.Pairwise fun a b => a.ChunkSeq ≤ b.ChunkSeq) ∧
      ReassembleTOAST zlib chunks valueID (some p) = (l.map TOASTChunk.Data).flatten := by
  refine ⟨sortChunks (chunks.filter fun c => c.ChunkID == valueID),
    sortChunks_perm _, sortChunks_pairwise _, ?_⟩
  simp [ReassembleTOAST, hne, hp]

/-- Chunks of the reassembly witness: value 42 split as "World!" at seq 1
and "Hello, " at seq 0, given out of order. -/
def c1Chunks : List TOASTChunk :=
  [⟨42, 1, [87, 111, 114, 108, 100, 33]⟩, ⟨42, 0, [72, 101, 108, 108, 111, 44, 32]⟩]

/-- Uncompressed external pointer of the reassembly witness, claiming a raw
size of 12 bytes. -/
def c1Ptr : TOASTPointer := ⟨12, 12, 42, 16500, false, 0⟩

/-- Witness for `reassemble_uncompressed_order` at the concrete chunks. -/
theorem reassemble_uncompressed_order_witness :
    ∃ l : List TOASTChunk,
      List.Perm l (c1Chunks.filter fun c => c.ChunkID == 42) ∧
      (l.Pairwise fun a b => a.ChunkSeq ≤ b.ChunkSeq) ∧
      ReassembleTOAST (fun _ => none) c1Chunks 42 (some c1Ptr) =
        (l.map TOASTChunk.Data).flatten :=
  reassemble_uncompressed_order (fun _ => none) c1Chunks 42 c1Ptr (by decide) (by decide)

/-- C1 counterexample: for the uncompressed pointer `c1Ptr` with
`RawSize = 12`, reassembly keeps all 13 chunk bytes — the returned value is
not truncated to `raw_size`, so its length exceeds `RawSize`. -/
theorem reassemble_no_truncation_cex :
    (ReassembleTOAST (fun _ => none) c1Chunks 42 (some c1Ptr)).length = 13 ∧
    ¬ (ReassembleTOAST (fun _ => none) c1Chunks 42 (some c1Ptr)).length ≤ c1Ptr.RawSize := by
  decide

/-- Any record produced by `parseXLogRecord` carries the LSN argument. -/
theorem parseXLogRecord_lsn {data : Bytes} {pos lsn : Nat} {rec : WALRecord}
    (h : parseXLogRecord data pos lsn = some rec) : rec.LSN = lsn := by
  simp only [parseXLogRecord] at h
  split at h
  · cases h
  · split at h
    · cases h
    · cases h
      rfl

/-- The first record returned by the record loop sits at the loop's start
position: its LSN is the page base plus that position. -/
theorem walRecords_head (data : Bytes) (baseOffset pos : Nat) (rec : WALRecord)
    (rest : List WALRecord) (h : walRecords data baseOffset pos = rec :: rest) :
    rec.LSN = baseOffset + pos := by
  rw [walRecords] at h
  split at h
  · split at h
    · cases h
    · split at h
      · cases h
      · rename_i r hrec
        injection h with h1 h2
        subst h1
        exact parseXLogRecord_lsn hrec
  · cases h

/-- C8: on a page whose header carries the first-record-is-continuation
flag with a positive remaining length, the first parsed record sits at
offset `align8 (hs + RemLen)` — its LSN is the page base plus that offset —
where `hs` is 40 for a long header and 24 otherwise; and a page whose magic
is not in the known set of engine versions 12–16 yields an error, hence no
records. -/
theorem wal_page_contrecord (data : Bytes) (baseOffset : Nat) :
    (∀ recs rec rest,
      (parsePageHeader data).Info &&& XLP_FIRST_IS_CONTRECORD ≠ 0 →
      0 < (parsePageHeader data).RemLen →
      parseWALPage data baseOffset = .ok recs →
      recs = rec :: rest →
      rec.LSN = baseOffset +
        align8 ((if (parsePageHeader data).Info &&& XLP_LONG_HEADER ≠ 0
          then LongHeaderSize else ShortHeaderSize) + (parsePageHeader data).RemLen)) ∧
    (isValidMagic (parsePageHeader data).Magic = false →
      ∃ e, parseWALPage data baseOffset = .error e) := by
  constructor
  · intro recs rec rest hflag hrem hok hcons
    simp only [parseWALPage] at hok
    split at hok
    · cases hok
    · split at hok
      · cases hok
      · injection hok with h1
        subst h1
        rw [if_pos ⟨hflag, hrem⟩] at hcons
        exact walRecords_head data baseOffset _ rec rest hcons
  · intro hbad
    simp only [parseWALPage]
    split
    · exact ⟨_, rfl⟩
    · rw [if_pos (show ¬(isValidMagic (parsePageHeader data).Magic = true) from by
        simp [hbad])]
      exact ⟨_, rfl⟩

/-- WAL page of the continuation witness: short header with valid magic
0xD113, the continuation flag, a remaining length of 2, and one minimal
24-byte record at the 8-aligned offset 32. -/
def c8Page : Bytes :=
  [0x13, 0xD1, 1, 0] ++ List.replicate 12 0 ++ [2, 0, 0, 0] ++
  List.replicate 12 0 ++ [24] ++ List.replicate 31 0

/-- The record loop finds nothing at offset 56 of `c8Page`. -/
theorem c8Records56 : walRecords c8Page 0 56 = [] := by
  rw [walRecords]
  rw [dif_neg (show ¬(56 + XLogRecordSize ≤ c8Page.length) from by decide)]

/-- The record loop finds exactly the minimal record at offset 32 of
`c8Page`. -/
theorem c8Records32 :
    walRecords c8Page 0 32 = [⟨24, 0, 0, 0, 0, 0, 32, []⟩] := by
  have hx : parseXLogRecord c8Page 32 (0 + 32) = some ⟨24, 0, 0, 0, 0, 0, 32, []⟩ := by
    decide
  rw [walRecords]
  rw [dif_pos (show 32 + XLogRecordSize ≤ c8Page.length from by decide)]
  rw [if_neg (show ¬(isZeroPadding (c8Page.drop 32) = true) from by decide)]
  split
  · rename_i hnone
    rw [hx] at hnone
    cases hnone
  · rename_i r hrec
    rw [hx] at hrec
    injection hrec with h1
    subst h1
    rw [show align8 (32 + (⟨24, 0, 0, 0, 0, 0, 32, []⟩ : WALRecord).TotalLen) = 56 from by
      decide]
    rw [c8Records56]

/-- `c8Page` parses to the single record at the aligned continuation
offset 32. -/
theorem c8Page_parse : parseWALPage c8Page 0 = .ok [⟨24, 0, 0, 0, 0, 0, 32, []⟩] := by
  simp only [parseWALPage]
  rw [if_neg (show ¬(c8Page.length < ShortHeaderSize) from by decide)]
  rw [if_neg (show ¬¬(isValidMagic (parsePageHeader c8Page).Magic = true) from by decide)]
  rw [if_pos (show (parsePageHeader c8Page).Info &&& XLP_FIRST_IS_CONTRECORD ≠ 0 ∧
    0 < (parsePageHeader c8Page).RemLen from by decide)]
  rw [if_neg (show ¬((parsePageHeader c8Page).Info &&& XLP_LONG_HEADER ≠ 0) from by decide)]
  rw [show align8 (ShortHeaderSize + (parsePageHeader c8Page).RemLen) = 32 from by decide]
  rw [c8Records32]

/-- Witness for `wal_page_contrecord` at `c8Page`: the single record's LSN
is the aligned continuation offset 32. -/
theorem wal_page_contrecord_witness :
    (⟨24, 0, 0, 0, 0, 0, 32, []⟩ : WALRecord).LSN =
      0 + align8 ((if (parsePageHeader c8Page).Info &&& XLP_LONG_HEADER ≠ 0
        then LongHeaderSize else ShortHeaderSize) + (parsePageHeader c8Page).RemLen) :=
  (wal_page_contrecord c8Page 0).1 [⟨24, 0, 0, 0, 0, 0, 32, []⟩] ⟨24, 0, 0, 0, 0, 0, 32, []⟩
    [] (by decide) (by decide) c8Page_parse rfl

/-- C3 (amended): a missing `global/1262` is the only missing-file error
propagated to the caller as a top-level failure; a missing per-database
catalog (`1259` or `1249`) is absorbed by silently dropping that database;
and a failed per-relation heap read is absorbed by keeping the relation in
the table list with its schema and an empty row set. -/
theorem dump_missing_file_flow (P : Catalogs) (fs : FS) (opts : Options)
    (db : DatabaseInfo) :
    (∀ e, fs "global/1262" = .error e → DumpDataDir P fs opts = .error e) ∧
    (∀ d, fs "global/1262" = .ok d → ∃ r, DumpDataDir P fs opts = .ok r) ∧
    (∀ e, fs (("base/" ++ toString db.OID) ++ "/1259") = .error e →
      dumpDatabase P fs db opts = none) ∧
    (∀ cd e, fs (("base/" ++ toString db.OID) ++ "/1259") = .ok cd →
      fs (("base/" ++ toString db.OID) ++ "/1249") = .error e →
      dumpDatabase P fs db opts = none) ∧
    (∀ fn ti attrs (reader : Nat → Except String Bytes) e,
      reader fn = .error e → opts.ListOnly = false →
      dumpTableFromReader fn ti attrs reader opts =
        { OID := ti.OID, Name := ti.Name, Filenode := fn, Kind := ti.Kind,
          Columns := ((attrs.lookup ti.OID).getD []).map fun a => ⟨a.Name, a.TypID⟩,
          Rows := [], RowCount := 0 }) := by
  refine ⟨?_, ?_, ?_, ?_, ?_⟩
  · intro e he
    simp only [DumpDataDir]
    rw [he]
  · intro d hd
    simp only [DumpDataDir]
    rw [hd]
    exact ⟨_, rfl⟩
  · intro e he
    simp only [dumpDatabase]
    rw [he]
  · intro cd e h1 h2
    simp only [dumpDatabase]
    rw [h1, h2]
  · intro fn ti attrs reader e hr hlo
    simp only [dumpTableFromReader]
    rw [if_neg (show ¬(opts.ListOnly = true) from by rw [hlo]; exact Bool.false_ne_true)]
    rw [hr]

/-- Catalogs of the orchestration examples: one database `app` with OID 5,
one ordinary relation `users` with filenode 16384, one text column. -/
def cexCatalogs : Catalogs :=
  ⟨fun _ => [⟨5, "app"⟩],
   fun _ => [(16384, ⟨1000, "users", 16384, "r"⟩)],
   fun _ _ => [(1000, [⟨"v", OidText, -1, 1, 99⟩])]⟩

/-- Options of the orchestration examples: no filters, full dump. -/
def cexOpts : Options := ⟨"", "", false, false, 16⟩

/-- File system of the orchestration counterexample: only the database
catalog `global/1262` exists. -/
def cexFS : FS := fun p => if p = "global/1262" then .ok [] else .error "missing"

/-- C3 counterexample: with only `global/1262` present, the dump succeeds —
the database whose own catalogs are missing is dropped, not reported as a
top-level failure; and under a reader that always fails, the relation
`users` still appears in the table list, with an empty row set rather than
being skipped. -/
theorem dump_missing_file_cex :
    DumpDataDir cexCatalogs cexFS cexOpts = .ok ⟨[]⟩ ∧
    ((DumpDatabaseFromFiles cexCatalogs [] [] (fun _ => .error "missing") cexOpts).Tables.map
      TableDump.Name = ["users"] ∧
     (DumpDatabaseFromFiles cexCatalogs [] [] (fun _ => .error "missing") cexOpts).Tables.map
      TableDump.Rows = [[]]) := by
  refine ⟨rfl, rfl, rfl⟩

/-- Witness for `dump_missing_file_flow`: a file system with no files at
all makes the whole dump fail with the missing `global/1262` error. -/
theorem dump_missing_file_flow_witness :
    DumpDataDir cexCatalogs (fun _ => .error "no such file") cexOpts =
      .error "no such file" :=
  (dump_missing_file_flow cexCatalogs (fun _ => .error "no such file") cexOpts
    ⟨5, "app"⟩).1 "no such file" rfl

end PgDump
